import Mathlib

/-!
Shallow embedding of the nanvix/microvm hypervisor core (src/elf.c,
src/initrd.c, src/microvm.c, src/main.c) and verification of the
specification's claims about it.

Machine integers are modelled as `Nat` with explicit `% 2^32` exactly where
the C code performs `uint32_t` arithmetic.  Guest-memory writes are modelled
as explicit copy records.  Fallible operations return `Except`.
-/

namespace MicroVm

/-- Number of values of the C type uint32_t; uint32 arithmetic is `% U32`. -/
def U32 : Nat := 2 ^ 32

/-- INITRD_BASE from include/microvm.h. -/
def INITRD_BASE : Nat := 0x00800000

/-- PAGE_SIZE from include/microvm.h. -/
def PAGE_SIZE : Nat := 4096

/-- STDOUT_PORT / STDIN_PORT from include/microvm.h (both 0xE9). -/
def STDOUT_PORT : Nat := 0xE9

/-- The mmap record of struct vm: kernel and initrd placement
(kernel_base and initrd_base are uint32_t, the sizes are size_t). -/
structure MMap where
  kernel_base : Nat
  kernel_size : Nat
  initrd_base : Nat
  initrd_size : Nat
deriving Repr, DecidableEq

/-- The part of struct vm (include/microvm.h) that the loaders and the
register setup read and write: the mmap record and mem_size. -/
structure Vm where
  mmap : MMap
  mem_size : Nat
deriving Repr, DecidableEq

/-- The zero-initialized vm of main.c (`struct vm vm = {};`) after vm_init
recorded mem_size. -/
def initVm (memSize : Nat) : Vm :=
  { mmap := { kernel_base := 0, kernel_size := 0, initrd_base := 0, initrd_size := 0 },
    mem_size := memSize }

/-- One memcpy into guest physical memory: destination guest address,
source offset in the mapped file, and length in bytes. -/
structure CopyOp where
  dst : Nat
  srcOff : Nat
  len : Nat
deriving Repr, DecidableEq

/-- The fields of an Elf32_Phdr that load_elf32 reads (p_vaddr, p_filesz
and p_memsz are 32-bit fields of the file). -/
structure Phdr where
  p_type : Nat
  p_offset : Nat
  p_vaddr : Nat
  p_filesz : Nat
  p_memsz : Nat
deriving Repr, DecidableEq

/-- PT_LOAD tag from elf.h. -/
def PT_LOAD : Nat := 1

/-- The fields of a mapped ELF file that load_elf32 reads: the e_ident
bytes it checks, the header fields, and the program header table. -/
structure ElfFile where
  magic0 : Nat
  magic1 : Nat
  magic2 : Nat
  magic3 : Nat
  ei_class : Nat
  ei_data : Nat
  ei_version : Nat
  e_type : Nat
  e_machine : Nat
  e_version : Nat
  e_entry : Nat
  phdrs : List Phdr
deriving Repr, DecidableEq

/-- Failure reasons of load_elf32, one per early-return branch. -/
inductive ElfError where
  | badMagic
  | wrongClass
  | wrongEndian
  | badIdentVersion
  | notExecutable
  | wrongMachine
  | badHeaderVersion
  | segmentOutOfBounds (i : Nat)
deriving Repr, DecidableEq

/-- The sequence of header checks of load_elf32 (src/elf.c lines 59-102),
in source order, returning the first failure if any.  The constants are
ELFMAG0..3 = 0x7f 'E' 'L' 'F', ELFCLASS32 = 1, ELFDATA2LSB = 1,
EV_CURRENT = 1, ET_EXEC = 2, EM_386 = 3. -/
def elfHeaderError (f : ElfFile) : Option ElfError :=
  if ¬(f.magic0 = 0x7f ∧ f.magic1 = 0x45 ∧ f.magic2 = 0x4c ∧ f.magic3 = 0x46) then
    some .badMagic
  else if f.ei_class ≠ 1 then some .wrongClass
  else if f.ei_data ≠ 1 then some .wrongEndian
  else if f.ei_version ≠ 1 then some .badIdentVersion
  else if f.e_type ≠ 2 then some .notExecutable
  else if f.e_machine ≠ 3 then some .wrongMachine
  else if f.e_version ≠ 1 then some .badHeaderVersion
  else none

/-- The program-header loop of load_elf32 (src/elf.c lines 108-136).
State: running index i, first_address, last_address, and the list of
memcpy operations performed so far.  The bounds check and segment_end
compute `p_vaddr + p_memsz` in uint32_t, hence the explicit `% U32`. -/
def loadSegments (memSize : Nat) :
    List Phdr → Nat → Nat → Nat → List CopyOp →
    Except ElfError (Nat × Nat × List CopyOp)
  | [], _, first, last, copies => .ok (first, last, copies)
  | p :: rest, i, first, last, copies =>
    if p.p_type ≠ PT_LOAD then
      loadSegments memSize rest (i + 1) first last copies
    else if (p.p_vaddr + p.p_memsz) % U32 > memSize then
      .error (.segmentOutOfBounds i)
    else
      loadSegments memSize rest (i + 1)
        (if p.p_vaddr < first then p.p_vaddr else first)
        (if (p.p_vaddr + p.p_memsz) % U32 > last then (p.p_vaddr + p.p_memsz) % U32
         else last)
        (copies ++ [{ dst := p.p_vaddr, srcOff := p.p_offset, len := p.p_filesz }])

/-- What load_elf32 leaves behind: the caller's entry variable (written
through the out-pointer) and either an error or the updated vm together
with the guest-memory copies performed. -/
structure ElfLoadOutcome where
  entryOut : Option Nat
  result : Except ElfError (Vm × List CopyOp)
deriving Repr

/-- load_elf32 (src/elf.c).  The entry out-parameter is written from
e_entry as soon as the file is mapped, before any header validation
(line 57).  first_address starts at UINT32_MAX and last_address at 0;
after the loop, kernel_base = first_address and
kernel_size = last_address - first_address in uint32_t arithmetic
(lines 150-152). -/
def load_elf32 (vm : Vm) (f : ElfFile) : ElfLoadOutcome :=
  match elfHeaderError f with
  | some e => { entryOut := some f.e_entry, result := .error e }
  | none =>
    match loadSegments vm.mem_size f.phdrs 0 (U32 - 1) 0 [] with
    | .error e => { entryOut := some f.e_entry, result := .error e }
    | .ok (first, last, copies) =>
      { entryOut := some f.e_entry,
        result := .ok
          ({ vm with
              mmap := { vm.mmap with
                kernel_base := first,
                kernel_size := (last + U32 - first) % U32 } },
            copies) }

/-- Failure reasons of load_initrd, one per early-return branch
(the open/fstat/mmap host failures are outside the model). -/
inductive InitrdError where
  | overlapsKernel
  | doesNotFit
deriving Repr, DecidableEq

/-- load_initrd (src/initrd.c lines 37-57), applied to a file of
fileSize bytes.  The overlap check tests only INITRD_BASE against the
kernel span; the fit check compares INITRD_BASE + fileSize (computed in
64-bit off_t, exact) against mem_size; on success initrd_base is set to
INITRD_BASE and initrd_size to fileSize rounded up to PAGE_SIZE. -/
def load_initrd (vm : Vm) (fileSize : Nat) : Except InitrdError (Vm × CopyOp) :=
  if INITRD_BASE ≥ vm.mmap.kernel_base ∧
      INITRD_BASE < vm.mmap.kernel_base + vm.mmap.kernel_size then
    .error .overlapsKernel
  else if INITRD_BASE + fileSize > vm.mem_size then
    .error .doesNotFit
  else
    .ok ({ vm with
            mmap := { vm.mmap with
              initrd_base := INITRD_BASE,
              initrd_size :=
                if fileSize % PAGE_SIZE ≠ 0 then
                  fileSize + PAGE_SIZE - fileSize % PAGE_SIZE
                else fileSize } },
          { dst := INITRD_BASE, srcOff := 0, len := fileSize })

/-- The rbx value programmed by vm_run (src/microvm.c lines 181-182):
(initrd_base & 0xfffff000) | ((initrd_size >> 12) & 0xfff). -/
def vm_run_rbx (initrdBase initrdSize : Nat) : Nat :=
  (initrdBase &&& 0xfffff000) ||| ((initrdSize >>> 12) &&& 0xfff)

/-- Little-endian value of a byte list, as read by `memcpy(&value, p, size)`
into a zero-initialized uint32_t. -/
def bytesToNatLE : List Nat → Nat
  | [] => 0
  | b :: rest => b + 256 * bytesToNatLE rest

/-- The contents of the 4-byte zero-initialized `value` buffer after fread
deposited the bytes it actually read. -/
def valueBytes4 (bs : List Nat) : List Nat :=
  (bs ++ List.replicate 4 0).take 4

/-- The port-I/O sub-record of a KVM_EXIT_IO exit: direction
(dirOut ↔ direction == KVM_EXIT_IO_OUT), port, access size, and the
payload bytes at data_offset in the shared region. -/
structure IoExit where
  dirOut : Bool
  port : Nat
  size : Nat
  payload : List Nat
deriving Repr, DecidableEq

/-- The exit reasons vm_run dispatches on. -/
inductive VmExit where
  | hlt
  | io (e : IoExit)
  | other (reason : Nat)
deriving Repr, DecidableEq

/-- One effect on the guest's stdout sink: an fwrite of raw bytes or an
fflush. -/
inductive SinkOp where
  | write (bs : List Nat)
  | flush
deriving Repr, DecidableEq

/-- Outcome of `fread(&value, size, 1, vm->vm_stdin)` on the configured
stdin stream: a full item (size bytes, fread returns 1), a short read at
end-of-file of that stream (fread returns 0, partial bytes deposited), or
a read error on that stream (fread returns 0). -/
inductive FreadOutcome where
  | full (bs : List Nat)
  | eofShort (bs : List Nat)
  | readFail (bs : List Nat)
deriving Repr, DecidableEq

/-- Host-stream environment of one exit-loop iteration: what fread on the
configured vm_stdin would yield, and whether the process-wide stdin stream
(the one feof() is actually called on, src/microvm.c line 234) is at
end-of-file. -/
structure ExitCtx where
  stdinRead : FreadOutcome
  processStdinEof : Bool
deriving Repr, DecidableEq

/-- Result of handling one exit in vm_run's switch: continue the loop
(with sink effects and, for IN, the bytes copied back into the shared
region), return 0 (shutdown), abort on an unexpected exit reason, or
abort because the stdin read failed. -/
inductive StepOutcome where
  | cont (sink : List SinkOp) (delivered : Option (List Nat))
  | shutdown
  | fatalExit (reason : Nat)
  | fatalRead
deriving Repr, DecidableEq

/-- One iteration of vm_run's exit-handling switch (src/microvm.c
lines 197-249). -/
def handleExit (ctx : ExitCtx) : VmExit → StepOutcome
  | .hlt => .cont [] none
  | .io e =>
    if e.dirOut then
      if e.port = STDOUT_PORT then
        .cont [.write (e.payload.take e.size), .flush] none
      else if e.port = 0x604 then
        if bytesToNatLE (e.payload.take e.size) = 0x2000 then .shutdown
        else .cont [] none
      else .cont [] none
    else
      if e.port = STDOUT_PORT then
        match ctx.stdinRead with
        | .full bs => .cont [] (some ((valueBytes4 bs).take e.size))
        | .eofShort bs =>
          if ctx.processStdinEof then .cont [] (some ((valueBytes4 bs).take e.size))
          else .fatalRead
        | .readFail bs =>
          if ctx.processStdinEof then .cont [] (some ((valueBytes4 bs).take e.size))
          else .fatalRead
      else .cont [] none
  | .other r => .fatalExit r

/-- How vm_run's for loop ended on a given exit trace: the guest shut
down (vm_run returns 0), the hypervisor aborted, or the trace ran out
with the guest still running. -/
inductive LoopEnd where
  | shutdown
  | fatal
  | pending
deriving Repr, DecidableEq

/-- vm_run's exit loop (src/microvm.c lines 189-250) over a finite trace
of exits, each paired with its host-stream environment.  Returns how the
loop ended and the ordered effects on the stdout sink. -/
def runLoop : List (ExitCtx × VmExit) → LoopEnd × List SinkOp
  | [] => (.pending, [])
  | (ctx, e) :: rest =>
    match handleExit ctx e with
    | .cont sink _ => ((runLoop rest).1, sink ++ (runLoop rest).2)
    | .shutdown => (.shutdown, [])
    | .fatalExit _ => (.fatal, [])
    | .fatalRead => (.fatal, [])

/-- Whether an exit terminates vm_run's loop (by returning or aborting)
rather than continuing to the next iteration. -/
def terminalStep (ctx : ExitCtx) (e : VmExit) : Bool :=
  match handleExit ctx e with
  | .cont _ _ => false
  | _ => true

/-- Modelled from the spec ("Direction OUT, port 0xE9 (STDOUT_PORT): read
size bytes from the shared region at data_offset and write them to the
guest's stdout sink; flush"): the stdout-sink effects one exit ought to
produce. -/
def specStdoutOps : VmExit → List SinkOp
  | .io e =>
    if e.dirOut ∧ e.port = 0xE9 then [.write (e.payload.take e.size), .flush]
    else []
  | _ => []

/-! Concrete inputs used by counterexamples and witnesses. -/

/-- A well-formed 32-bit x86 executable ELF header with no program
headers at all. -/
def elfNoLoad : ElfFile :=
  { magic0 := 0x7f, magic1 := 0x45, magic2 := 0x4c, magic3 := 0x46,
    ei_class := 1, ei_data := 1, ei_version := 1,
    e_type := 2, e_machine := 3, e_version := 1,
    e_entry := 0x100000, phdrs := [] }

/-- The vm state load_elf32 produces for elfNoLoad in 128 MiB of guest
memory: first_address stayed UINT32_MAX and last_address stayed 0. -/
def vmNoLoad : Vm :=
  { mmap := { kernel_base := 0xFFFFFFFF, kernel_size := 1,
              initrd_base := 0, initrd_size := 0 },
    mem_size := 0x08000000 }

/-- A valid ELF whose single PT_LOAD segment wraps around 32 bits:
p_vaddr = 0xFFFFF000 and p_memsz = 0x2000, so p_vaddr + p_memsz is
0x100001000 exactly but 0x1000 in uint32_t. -/
def elfWrapSegment : ElfFile :=
  { elfNoLoad with
    phdrs := [{ p_type := 1, p_offset := 0x1000, p_vaddr := 0xFFFFF000,
                p_filesz := 0x100, p_memsz := 0x2000 }] }

/-- The vm state load_elf32 produces for elfWrapSegment in 128 MiB. -/
def vmWrap : Vm :=
  { mmap := { kernel_base := 0xFFFFF000, kernel_size := 0x2000,
              initrd_base := 0, initrd_size := 0 },
    mem_size := 0x08000000 }

/-- A valid ELF whose single PT_LOAD segment spans
[0x00900000, 0x00A00000): the kernel sits entirely above INITRD_BASE. -/
def elfHighKernel : ElfFile :=
  { elfNoLoad with
    phdrs := [{ p_type := 1, p_offset := 0x2000, p_vaddr := 0x00900000,
                p_filesz := 0x1000, p_memsz := 0x00100000 }] }

/-- The vm state load_elf32 produces for elfHighKernel in 128 MiB. -/
def vmHighKernel : Vm :=
  { mmap := { kernel_base := 0x00900000, kernel_size := 0x00100000,
              initrd_base := 0, initrd_size := 0 },
    mem_size := 0x08000000 }

/-- The vm state load_initrd produces from vmHighKernel for a 2 MiB
initrd file: the initrd span [0x00800000, 0x00A00000) overlaps the
kernel span [0x00900000, 0x00A00000). -/
def vmPair : Vm :=
  { mmap := { kernel_base := 0x00900000, kernel_size := 0x00100000,
              initrd_base := 0x00800000, initrd_size := 0x00200000 },
    mem_size := 0x08000000 }

/-- The vm state load_initrd produces from vmHighKernel for a 5000-byte
initrd file (5000 rounds up to 8192). -/
def vmSmallInitrd : Vm :=
  { mmap := { kernel_base := 0x00900000, kernel_size := 0x00100000,
              initrd_base := 0x00800000, initrd_size := 8192 },
    mem_size := 0x08000000 }

/-- elfNoLoad with its first magic byte corrupted. -/
def elfBadMagic : ElfFile := { elfNoLoad with magic0 := 0 }

/-! Helper lemmas about the loaders. -/

/-- If no program header is PT_LOAD, the segment loop changes nothing. -/
theorem loadSegments_noLoad (memSize : Nat) (ps : List Phdr) :
    ∀ i first last copies, (∀ p ∈ ps, p.p_type ≠ PT_LOAD) →
      loadSegments memSize ps i first last copies = .ok (first, last, copies) := by
  induction ps with
  | nil => intro i first last copies _; rfl
  | cons p rest ih =>
    intro i first last copies h
    have hp : p.p_type ≠ PT_LOAD := h p (List.mem_cons_self p rest)
    rw [loadSegments, if_pos hp]
    exact ih (i + 1) first last copies (fun q hq => h q (List.mem_cons_of_mem p hq))

/-- Bounds established by a successful segment loop that loaded at least
one PT_LOAD segment, provided no segment end overflows 32 bits. -/
theorem loadSegments_bounds (memSize : Nat) (ps : List Phdr) :
    ∀ i first last copies f l c,
      (∀ p ∈ ps, p.p_vaddr + p.p_memsz < U32) →
      (∃ p ∈ ps, p.p_type = PT_LOAD) →
      loadSegments memSize ps i first last copies = .ok (f, l, c) →
      f ≤ l ∧ (last ≤ memSize → l ≤ memSize) ∧ (last < U32 → l < U32) := by
  induction ps with
  | nil =>
    intro i first last copies f l c _ hex _
    simp at hex
  | cons p rest ih =>
    intro i first last copies f l c hwf hex hok
    by_cases hp : p.p_type = PT_LOAD
    · rw [loadSegments, if_neg (by simpa using hp)] at hok
      by_cases hchk : (p.p_vaddr + p.p_memsz) % U32 > memSize
      · rw [if_pos hchk] at hok; exact absurd hok (by simp)
      · rw [if_neg hchk] at hok
        push_neg at hchk
        have hwfp : p.p_vaddr + p.p_memsz < U32 := hwf p (List.mem_cons_self p rest)
        have hseg : (p.p_vaddr + p.p_memsz) % U32 = p.p_vaddr + p.p_memsz :=
          Nat.mod_eq_of_lt hwfp
        set segEnd := (p.p_vaddr + p.p_memsz) % U32 with hsegEnd
        set first' := if p.p_vaddr < first then p.p_vaddr else first with hfirst'
        set last' := if segEnd > last then segEnd else last with hlast'
        have hf'v : first' ≤ p.p_vaddr := by rw [hfirst']; split <;> omega
        have hvseg : p.p_vaddr ≤ segEnd := by omega
        have hsegl' : segEnd ≤ last' := by rw [hlast']; split <;> omega
        have hll' : last ≤ last' := by rw [hlast']; split <;> omega
        have hsegm : segEnd ≤ memSize := hchk
        have hsegu : segEnd < U32 := by
          rw [hsegEnd]; exact Nat.mod_lt _ (by norm_num [U32])
        have hl'm : last ≤ memSize → last' ≤ memSize := by
          intro hlm; rw [hlast']; split <;> omega
        have hl'u : last < U32 → last' < U32 := by
          intro hlu; rw [hlast']; split <;> omega
        by_cases hrest : ∃ q ∈ rest, q.p_type = PT_LOAD
        · obtain ⟨h1, h2, h3⟩ :=
            ih (i + 1) first' last' _ f l c
              (fun q hq => hwf q (List.mem_cons_of_mem p hq)) hrest hok
          exact ⟨h1, fun hlm => h2 (hl'm hlm), fun hlu => h3 (hl'u hlu)⟩
        · push_neg at hrest
          rw [loadSegments_noLoad memSize rest (i + 1) first' last' _ hrest] at hok
          simp only [Except.ok.injEq, Prod.mk.injEq] at hok
          obtain ⟨hfi, hli, -⟩ := hok
          exact ⟨by omega, fun hlm => by have := hl'm hlm; omega,
                 fun hlu => by have := hl'u hlu; omega⟩
    · rw [loadSegments, if_pos hp] at hok
      have hrest : ∃ q ∈ rest, q.p_type = PT_LOAD := by
        obtain ⟨q, hq, hqt⟩ := hex
        rcases List.mem_cons.mp hq with h | h
        · exact absurd (h ▸ hqt) hp
        · exact ⟨q, h, hqt⟩
      exact ih (i + 1) first last copies f l c
        (fun q hq => hwf q (List.mem_cons_of_mem p hq)) hrest hok

/-- Inversion of a successful load_elf32: the header was valid, the
segment loop succeeded, and the output vm is the input with the kernel
span recorded in uint32_t arithmetic. -/
theorem load_elf32_ok_inv {vm : Vm} {f : ElfFile} {vm' : Vm} {ops : List CopyOp}
    (h : (load_elf32 vm f).result = .ok (vm', ops)) :
    elfHeaderError f = none ∧
    ∃ first last,
      loadSegments vm.mem_size f.phdrs 0 (U32 - 1) 0 [] = .ok (first, last, ops) ∧
      vm' = { vm with mmap := { vm.mmap with
                kernel_base := first,
                kernel_size := (last + U32 - first) % U32 } } := by
  unfold load_elf32 at h
  cases hh : elfHeaderError f with
  | some e => rw [hh] at h; exact absurd h (by simp)
  | none =>
    rw [hh] at h
    cases hs : loadSegments vm.mem_size f.phdrs 0 (U32 - 1) 0 [] with
    | error e => rw [hs] at h; exact absurd h (by simp)
    | ok t =>
      obtain ⟨first, last, copies⟩ := t
      rw [hs] at h
      simp at h
      exact ⟨rfl, first, last, by rw [h.2], h.1.symm⟩

/-- Inversion of a successful load_initrd: neither check fired, and the
output vm is the input with the initrd placement recorded. -/
theorem load_initrd_ok_inv {vm : Vm} {fs : Nat} {vm' : Vm} {op : CopyOp}
    (h : load_initrd vm fs = .ok (vm', op)) :
    ¬(INITRD_BASE ≥ vm.mmap.kernel_base ∧
        INITRD_BASE < vm.mmap.kernel_base + vm.mmap.kernel_size) ∧
    INITRD_BASE + fs ≤ vm.mem_size ∧
    vm' = { vm with mmap := { vm.mmap with
              initrd_base := INITRD_BASE,
              initrd_size :=
                if fs % PAGE_SIZE ≠ 0 then fs + PAGE_SIZE - fs % PAGE_SIZE
                else fs } } := by
  unfold load_initrd at h
  split at h
  · exact absurd h (by simp)
  · split at h
    · exact absurd h (by simp)
    · rename_i h1 h2
      simp only [Except.ok.injEq, Prod.mk.injEq] at h
      exact ⟨h1, by omega, h.1.symm⟩

/-- Decoding the packed rbx value for an initrd placed at INITRD_BASE:
the low 12 bits carry the size in pages and the high bits carry the
base. -/
theorem vm_run_rbx_decode (s : Nat) :
    vm_run_rbx INITRD_BASE s &&& 0xfff = (s / 4096) % 4096 ∧
    vm_run_rbx INITRD_BASE s &&& 0xfffff000 = INITRD_BASE := by
  unfold vm_run_rbx INITRD_BASE
  have hbase : (0x00800000 : Nat) &&& 0xfffff000 = 0x00800000 := by decide
  rw [hbase]
  have ht12 : ((s >>> 12) &&& 0xfff) = (s / 4096) % 4096 := by
    rw [Nat.shiftRight_eq_div_pow]
    have h := Nat.and_pow_two_sub_one_eq_mod (s / 2 ^ 12) 12
    norm_num at h ⊢
    exact h
  constructor
  · rw [Nat.and_distrib_right]
    have h1 : (0x00800000 : Nat) &&& 0xfff = 0 := by decide
    have h2 : ((s >>> 12) &&& 0xfff) &&& 0xfff = (s >>> 12) &&& 0xfff := by
      rw [Nat.and_assoc]
      have hff : (0xfff : Nat) &&& 0xfff = 0xfff := by decide
      rw [hff]
    rw [h1, h2, Nat.zero_or, ht12]
  · rw [Nat.and_distrib_right, hbase]
    have h3 : ((s >>> 12) &&& 0xfff) &&& 0xfffff000 = 0 := by
      rw [Nat.and_assoc]
      have hf0 : (0xfff : Nat) &&& 0xfffff000 = 0 := by decide
      rw [hf0]
      simp
    rw [h3, Nat.or_zero]

/-! Claim theorems. -/

/-- Claim C1, counterexample: a successful kernel load at
[0x00900000, 0x00A00000) followed by a successful load of a 2 MiB initrd
yields spans [0x00800000, 0x00A00000) and [0x00900000, 0x00A00000) that
are not disjoint, so the claimed invariant is false. -/
theorem C1_counterexample :
    (load_elf32 (initVm 0x08000000) elfHighKernel).result =
      .ok (vmHighKernel, [{ dst := 0x00900000, srcOff := 0x2000, len := 0x1000 }]) ∧
    load_initrd vmHighKernel 0x00200000 =
      .ok (vmPair, { dst := 0x00800000, srcOff := 0, len := 0x00200000 }) ∧
    ¬(vmPair.mmap.initrd_base ≥ vmPair.mmap.kernel_base + vmPair.mmap.kernel_size ∨
      vmPair.mmap.initrd_base + vmPair.mmap.initrd_size ≤ vmPair.mmap.kernel_base) :=
  ⟨rfl, rfl, by decide⟩

/-- Claim C1, amended: for every successful initrd load, the initrd BASE
lies outside the kernel span (initrd_base < kernel_base or
initrd_base ≥ kernel_base + kernel_size); full span disjointness does not
hold because the code only tests INITRD_BASE against the kernel span. -/
theorem C1_initrd_base_outside_kernel_span :
    ∀ vm fs vm' op, load_initrd vm fs = .ok (vm', op) →
      vm'.mmap.initrd_base < vm'.mmap.kernel_base ∨
      vm'.mmap.initrd_base ≥ vm'.mmap.kernel_base + vm'.mmap.kernel_size := by
  intro vm fs vm' op h
  obtain ⟨hov, -, hvm'⟩ := load_initrd_ok_inv h
  subst hvm'
  simp only []
  omega

/-- Claim C1, witness: the amended statement at the concrete overlapping
pair. -/
theorem C1_witness :
    vmPair.mmap.initrd_base < vmPair.mmap.kernel_base ∨
    vmPair.mmap.initrd_base ≥ vmPair.mmap.kernel_base + vmPair.mmap.kernel_size :=
  C1_initrd_base_outside_kernel_span vmHighKernel 0x00200000 vmPair
    { dst := 0x00800000, srcOff := 0, len := 0x00200000 } rfl

/-- Claim C2, counterexample: a valid ELF with no PT_LOAD segment loads
successfully, but kernel_base + kernel_size = 2^32 exceeds the 128 MiB
mem_size, so the claimed bound is false as stated. -/
theorem C2_counterexample :
    (load_elf32 (initVm 0x08000000) elfNoLoad).result = .ok (vmNoLoad, []) ∧
    vmNoLoad.mmap.kernel_base + vmNoLoad.mmap.kernel_size > vmNoLoad.mem_size :=
  ⟨rfl, by decide⟩

/-- Claim C2, amended: kernel_base + kernel_size ≤ mem_size holds for
every successful kernel load that loads at least one PT_LOAD segment and
in which no p_vaddr + p_memsz overflows 32 bits; and
initrd_base + initrd_size ≤ mem_size holds for every successful initrd
load into a page-aligned mem_size. -/
theorem C2_memory_bounds_amended :
    (∀ vm f vm' ops, (load_elf32 vm f).result = .ok (vm', ops) →
      (∃ p ∈ f.phdrs, p.p_type = PT_LOAD) →
      (∀ p ∈ f.phdrs, p.p_vaddr + p.p_memsz < U32) →
      vm'.mmap.kernel_base + vm'.mmap.kernel_size ≤ vm'.mem_size) ∧
    (∀ vm fs vm' op, load_initrd vm fs = .ok (vm', op) →
      vm.mem_size % PAGE_SIZE = 0 →
      vm'.mmap.initrd_base + vm'.mmap.initrd_size ≤ vm'.mem_size) := by
  constructor
  · intro vm f vm' ops hok hex hwf
    obtain ⟨-, first, last, hs, hvm'⟩ := load_elf32_ok_inv hok
    obtain ⟨h1, h2, h3⟩ := loadSegments_bounds vm.mem_size f.phdrs 0 (U32 - 1) 0 [] first last ops hwf hex hs
    subst hvm'
    simp only []
    have hU : U32 = 4294967296 := rfl
    have hm := h2 (Nat.zero_le _)
    have hu := h3 (by rw [hU]; norm_num)
    rw [hU] at hu ⊢
    omega
  · intro vm fs vm' op h hpage
    obtain ⟨-, hfit, hvm'⟩ := load_initrd_ok_inv h
    subst hvm'
    simp only []
    have hB : INITRD_BASE = 0x00800000 := rfl
    have hP : PAGE_SIZE = 4096 := rfl
    rw [hP] at hpage
    rw [hB] at hfit ⊢
    rw [hP]
    split <;> omega

/-- Claim C2, witness: the amended bounds at concrete successful loads
(the high kernel and the 2 MiB initrd). -/
theorem C2_witness :
    vmHighKernel.mmap.kernel_base + vmHighKernel.mmap.kernel_size ≤
      vmHighKernel.mem_size ∧
    vmPair.mmap.initrd_base + vmPair.mmap.initrd_size ≤ vmPair.mem_size :=
  ⟨C2_memory_bounds_amended.1 (initVm 0x08000000) elfHighKernel vmHighKernel
      [{ dst := 0x00900000, srcOff := 0x2000, len := 0x1000 }] rfl
      (by simp [elfHighKernel, elfNoLoad, PT_LOAD])
      (by simp [elfHighKernel, elfNoLoad, U32]),
   C2_memory_bounds_amended.2 vmHighKernel 0x00200000 vmPair
      { dst := 0x00800000, srcOff := 0, len := 0x00200000 } rfl (by decide)⟩

/-- Claim C3: when an initrd was loaded, the handed-over ebx satisfies
ebx & 0xFFF = (initrd_size / 4096) mod 4096 and
ebx & 0xFFFFF000 = initrd_base; when no initrd was loaded (the vm is the
zero-initialized one, possibly after a kernel load), ebx = 0. -/
theorem C3_boot_register_encoding :
    (∀ vm fs vm' op, load_initrd vm fs = .ok (vm', op) →
      vm_run_rbx vm'.mmap.initrd_base vm'.mmap.initrd_size &&& 0xfff =
        (vm'.mmap.initrd_size / 4096) % 4096 ∧
      vm_run_rbx vm'.mmap.initrd_base vm'.mmap.initrd_size &&& 0xfffff000 =
        vm'.mmap.initrd_base) ∧
    (∀ ms f vm' ops, (load_elf32 (initVm ms) f).result = .ok (vm', ops) →
      vm_run_rbx vm'.mmap.initrd_base vm'.mmap.initrd_size = 0) := by
  constructor
  · intro vm fs vm' op h
    obtain ⟨-, -, hvm'⟩ := load_initrd_ok_inv h
    subst hvm'
    exact vm_run_rbx_decode _
  · intro ms f vm' ops h
    obtain ⟨-, first, last, -, hvm'⟩ := load_elf32_ok_inv h
    subst hvm'
    show vm_run_rbx 0 0 = 0
    decide

/-- Claim C3, witness: the encoding identities at the concrete loaded
pair, and ebx = 0 after a kernel-only load. -/
theorem C3_witness :
    (vm_run_rbx vmPair.mmap.initrd_base vmPair.mmap.initrd_size &&& 0xfff =
        (vmPair.mmap.initrd_size / 4096) % 4096 ∧
      vm_run_rbx vmPair.mmap.initrd_base vmPair.mmap.initrd_size &&& 0xfffff000 =
        vmPair.mmap.initrd_base) ∧
    vm_run_rbx vmHighKernel.mmap.initrd_base vmHighKernel.mmap.initrd_size = 0 :=
  ⟨C3_boot_register_encoding.1 vmHighKernel 0x00200000 vmPair
      { dst := 0x00800000, srcOff := 0, len := 0x00200000 } rfl,
   C3_boot_register_encoding.2 0x08000000 elfHighKernel vmHighKernel
      [{ dst := 0x00900000, srcOff := 0x2000, len := 0x1000 }] rfl⟩

/-- Claim C4: the bounds check computes p_vaddr + p_memsz in uint32_t,
not in exact arithmetic.  At p_vaddr = 0xFFFFF000, p_memsz = 0x2000 and
mem_size = 128 MiB the exact sum 0x100001000 exceeds mem_size, yet the
wrapped sum 0x1000 passes the check and the segment IS copied into guest
memory, contradicting the claim (and overrunning the guest mapping). -/
theorem C4_overflow_bypasses_bounds_check :
    (load_elf32 (initVm 0x08000000) elfWrapSegment).result =
      .ok (vmWrap, [{ dst := 0xFFFFF000, srcOff := 0x1000, len := 0x100 }]) ∧
    0xFFFFF000 + 0x2000 > (0x08000000 : Nat) :=
  ⟨rfl, by norm_num⟩

/-- Claim C5, counterexample: for a valid ELF with no PT_LOAD header the
load succeeds but sets kernel_base = 0xFFFFFFFF and kernel_size = 1, not
kernel_base = 0 and kernel_size = 0 as claimed. -/
theorem C5_counterexample :
    (load_elf32 (initVm 0x08000000) elfNoLoad).result = .ok (vmNoLoad, []) ∧
    ¬(vmNoLoad.mmap.kernel_base = 0 ∧ vmNoLoad.mmap.kernel_size = 0) :=
  ⟨rfl, by decide⟩

/-- Claim C5, amended: if a valid ELF contains no PT_LOAD program header,
load_elf32 succeeds, copies nothing, and sets kernel_base = 2^32 − 1
(first_address stays UINT32_MAX) and kernel_size = 1 (the uint32_t value
of 0 − UINT32_MAX). -/
theorem C5_no_loadable_segment_sentinel :
    ∀ vm f, elfHeaderError f = none → (∀ p ∈ f.phdrs, p.p_type ≠ PT_LOAD) →
      (load_elf32 vm f).result =
        .ok ({ vm with mmap := { vm.mmap with
                 kernel_base := U32 - 1, kernel_size := 1 } }, []) := by
  intro vm f hh hnp
  unfold load_elf32
  rw [hh, loadSegments_noLoad vm.mem_size f.phdrs 0 (U32 - 1) 0 [] hnp]
  rfl

/-- Claim C5, witness: the amended statement at the concrete
header-valid, segmentless ELF. -/
theorem C5_witness :
    (load_elf32 (initVm 0x08000000) elfNoLoad).result =
      .ok ({ initVm 0x08000000 with
              mmap := { (initVm 0x08000000).mmap with
                kernel_base := U32 - 1, kernel_size := 1 } }, []) :=
  C5_no_loadable_segment_sentinel (initVm 0x08000000) elfNoLoad rfl
    (by simp [elfNoLoad])

/-- Claim C6: an OUT to port 0x604 shuts the VM down (vm_run returns 0)
exactly when the size-byte payload, read little-endian into a 32-bit
value, equals 0x2000; any other value leaves the loop to resume the
guest with no effect. -/
theorem C6_shutdown_port :
    ∀ ctx sz pl,
      (handleExit ctx (.io { dirOut := true, port := 0x604, size := sz, payload := pl }) =
          .shutdown ↔ bytesToNatLE (pl.take sz) = 0x2000) ∧
      (bytesToNatLE (pl.take sz) ≠ 0x2000 →
        handleExit ctx (.io { dirOut := true, port := 0x604, size := sz, payload := pl }) =
          .cont [] none) := by
  intro ctx sz pl
  unfold handleExit STDOUT_PORT
  by_cases hv : bytesToNatLE (pl.take sz) = 0x2000 <;> simp [hv]

/-- Claim C6, witness: payload bytes 0x00 0x20 (value 0x2000) shut down;
payload bytes 0x01 0x20 (value 0x2001) have no effect. -/
theorem C6_witness :
    handleExit { stdinRead := .full [], processStdinEof := false }
        (.io { dirOut := true, port := 0x604, size := 2, payload := [0x00, 0x20] }) =
      .shutdown ∧
    handleExit { stdinRead := .full [], processStdinEof := false }
        (.io { dirOut := true, port := 0x604, size := 2, payload := [0x01, 0x20] }) =
      .cont [] none :=
  ⟨(C6_shutdown_port { stdinRead := .full [], processStdinEof := false } 2
      [0x00, 0x20]).1.mpr (by decide),
   (C6_shutdown_port { stdinRead := .full [], processStdinEof := false } 2
      [0x01, 0x20]).2 (by decide)⟩

/-- Claim C7: the code aborts or continues according to feof(stdin), the
process-wide stdin, not the configured vm_stdin it actually read from.
With the configured source at EOF but the process stdin not at EOF, the
loop aborts (fatalRead) although the claim requires delivering the zero
payload; with a read error on the configured source but the process
stdin at EOF, the loop silently delivers zeros although the claim
requires Fatal. -/
theorem C7_eof_check_wrong_stream :
    handleExit { stdinRead := .eofShort [], processStdinEof := false }
        (.io { dirOut := false, port := 0xE9, size := 1, payload := [] }) =
      .fatalRead ∧
    handleExit { stdinRead := .eofShort [], processStdinEof := true }
        (.io { dirOut := false, port := 0xE9, size := 1, payload := [] }) =
      .cont [] (some [0]) ∧
    handleExit { stdinRead := .readFail [], processStdinEof := true }
        (.io { dirOut := false, port := 0xE9, size := 1, payload := [] }) =
      .cont [] (some [0]) :=
  ⟨rfl, rfl, rfl⟩

/-- Whatever a continuing exit leaves on the stdout sink is exactly what
the spec prescribes for it: the raw size-byte payload then a flush for an
OUT to 0xE9, and nothing for every other continuing exit. -/
theorem handleExit_cont_sink (ctx : ExitCtx) (e : VmExit) (sink : List SinkOp)
    (d : Option (List Nat)) (h : handleExit ctx e = .cont sink d) :
    sink = specStdoutOps e := by
  cases e with
  | hlt =>
    simp only [handleExit, StepOutcome.cont.injEq] at h
    simp [specStdoutOps, h.1.symm]
  | other r => simp [handleExit] at h
  | io ioe =>
    obtain ⟨sr, pse⟩ := ctx
    simp only [handleExit] at h
    simp only [specStdoutOps]
    by_cases hd : ioe.dirOut <;>
      by_cases hp : ioe.port = STDOUT_PORT <;>
        by_cases hq : ioe.port = 0x604 <;>
          cases sr <;> cases pse <;>
            by_cases hv : bytesToNatLE (ioe.payload.take ioe.size) = 0x2000 <;>
              simp_all [STDOUT_PORT]

/-- Claim C8: over any exit trace, the stdout sink receives exactly, and
in order, one write of the raw size-byte payload followed by one flush
per OUT-to-0xE9 exit of the prefix handled before the loop terminates,
and nothing else — every byte OUT to 0xE9 appears exactly once and in
guest-program order. -/
theorem C8_stdout_transparency :
    ∀ trace : List (ExitCtx × VmExit),
      (runLoop trace).2 =
        (trace.takeWhile fun x => !terminalStep x.1 x.2).flatMap
          fun x => specStdoutOps x.2 := by
  intro trace
  induction trace with
  | nil => rfl
  | cons x rest ih =>
    obtain ⟨ctx, e⟩ := x
    cases hh : handleExit ctx e with
    | cont sink d =>
      have hterm : terminalStep ctx e = false := by
        unfold terminalStep
        rw [hh]
      rw [runLoop]
      rw [hh]
      rw [List.takeWhile_cons]
      simp only [hterm, Bool.not_false, if_pos]
      rw [List.flatMap_cons, ih, handleExit_cont_sink ctx e sink d hh]
    | shutdown =>
      have hterm : terminalStep ctx e = true := by
        unfold terminalStep; rw [hh]
      rw [runLoop, hh, List.takeWhile_cons]
      simp [hterm]
    | fatalExit r =>
      have hterm : terminalStep ctx e = true := by
        unfold terminalStep; rw [hh]
      rw [runLoop, hh, List.takeWhile_cons]
      simp [hterm]
    | fatalRead =>
      have hterm : terminalStep ctx e = true := by
        unfold terminalStep; rw [hh]
      rw [runLoop, hh, List.takeWhile_cons]
      simp [hterm]

/-- Claim C9: every successful initrd load places the initrd at
0x00800000 and records the file size rounded up to the next multiple of
4096 (the least page multiple not below it), so both initrd_base and
initrd_size are page-aligned. -/
theorem C9_initrd_alignment :
    ∀ vm fs vm' op, load_initrd vm fs = .ok (vm', op) →
      vm'.mmap.initrd_base = 0x00800000 ∧
      vm'.mmap.initrd_base % 4096 = 0 ∧
      vm'.mmap.initrd_size % 4096 = 0 ∧
      fs ≤ vm'.mmap.initrd_size ∧
      vm'.mmap.initrd_size < fs + 4096 := by
  intro vm fs vm' op h
  obtain ⟨-, -, hvm'⟩ := load_initrd_ok_inv h
  subst hvm'
  simp only []
  have hB : INITRD_BASE = 0x00800000 := rfl
  have hP : PAGE_SIZE = 4096 := rfl
  rw [hB, hP]
  refine ⟨rfl, by norm_num, ?_, ?_, ?_⟩ <;> split <;> omega

/-- Claim C9, witness: a 5000-byte initrd file lands at 0x00800000 with
size 8192. -/
theorem C9_witness :
    vmSmallInitrd.mmap.initrd_base = 0x00800000 ∧
    vmSmallInitrd.mmap.initrd_base % 4096 = 0 ∧
    vmSmallInitrd.mmap.initrd_size % 4096 = 0 ∧
    5000 ≤ vmSmallInitrd.mmap.initrd_size ∧
    vmSmallInitrd.mmap.initrd_size < 5000 + 4096 :=
  C9_initrd_alignment vmHighKernel 5000 vmSmallInitrd
    { dst := 0x00800000, srcOff := 0, len := 5000 } rfl

/-- Claim C10: load_elf32 stores e_entry through the out-pointer before
validating the header, so any file rejected by a header check still
returns failure with the caller's entry overwritten by the file's
e_entry. -/
theorem C10_entry_written_before_validation :
    ∀ vm f e, elfHeaderError f = some e →
      (load_elf32 vm f).result = .error e ∧
      (load_elf32 vm f).entryOut = some f.e_entry := by
  intro vm f e hh
  unfold load_elf32
  rw [hh]
  exact ⟨rfl, rfl⟩

/-- Claim C10, witness: a file with a corrupted first magic byte is
rejected with badMagic, yet the entry out-parameter holds its e_entry
value 0x100000. -/
theorem C10_witness :
    (load_elf32 (initVm 0x08000000) elfBadMagic).result = .error .badMagic ∧
    (load_elf32 (initVm 0x08000000) elfBadMagic).entryOut = some 0x100000 :=
  C10_entry_written_before_validation (initVm 0x08000000) elfBadMagic .badMagic rfl

end MicroVm
